import Mathlib

/-!
Verification of the BTwin battery digital-twin estimation core.

Shallow embedding of the estimation engine of the BTwin repository:

* `dfn_model/soh_estimator.py`  — SOH / RUL estimator (`SOHEstimator`);
* `dfn_model/ekf_soc.py`        — EKF SOC estimator (`EKFSoCEstimator`);
* `dfn_model/pybamm_interface.py` — OCV/ECM provider (`DFNInterface`);
* `dfn_model/battery_twin.py`   — orchestrator (`BatteryDigitalTwin`).

Python floats are idealised as elements of a linear ordered field; the
pure-data parts (SOH estimator, OCV table interpolation, orchestrator
fallback path) are written generically and instantiated at `ℚ`, so that
concrete runs are decidable, while the EKF, which needs `exp` and `sqrt`,
lives over `ℝ`.  Wall-clock reads (`time.time()`) become an explicit `now`
argument, and the one effectful initialisation routine takes its control
flow outcome (cache hit / generated / exception) as an explicit value.
-/

/-- `np.clip(x, lo, hi)`, i.e. `min (max x lo) hi` (numpy applies the lower
bound first, then the upper bound). -/
def clip {α : Type} [LinearOrder α] (x lo hi : α) : α :=
  min (max x lo) hi

/-- Append to a `collections.deque(maxlen := m)`: push the new element and
drop the oldest elements beyond capacity `m`. -/
def pushBounded {β : Type} (l : List β) (x : β) (m : ℕ) : List β :=
  let l2 := l ++ [x]
  l2.drop (l2.length - m)

/-- Round to the nearest integer, ties to even — the rounding used by
Python's builtin `round`. -/
def roundHalfEven {α : Type} [LinearOrderedField α] [FloorRing α] (x : α) : ℤ :=
  let f := ⌊x⌋
  if x - (f : α) < 1 / 2 then f
  else if (1 : α) / 2 < x - (f : α) then f + 1
  else if f % 2 = 0 then f else f + 1

/-- Python's `round(x, n)`: round half-to-even at `n` decimal digits. -/
def roundTo {α : Type} [LinearOrderedField α] [FloorRing α] (x : α) (n : ℕ) : α :=
  ((roundHalfEven (x * 10 ^ n) : ℤ) : α) / 10 ^ n

/-! ## SOH / RUL estimator — `dfn_model/soh_estimator.py`, class `SOHEstimator` -/

/-- Class constant `SOHEstimator.CAPACITY_FADE_PER_CYCLE_PCT = 0.04`
(% SOH lost per equivalent full cycle). -/
def capacityFadePerCyclePct {α : Type} [LinearOrderedField α] : α := 4 / 100

/-- Mutable attributes of a `SOHEstimator` instance (`__init__`). The
wall-clock reads `time.time()` are explicit `α` values. -/
structure SOHState (α : Type) where
  Q_nominal : α
  R0_new : α
  soh_eol : α
  nominal_cycle_life : ℕ
  soh_capacity : α
  soh_resistance : α
  soh_combined : α
  full_cycles : α
  charge_accumulated_ah : α
  last_soc : Option α
  soc_direction : ℤ
  r0_ema : α
  r0_alpha : α
  total_ah_throughput : α
  start_time : α
  last_update_time : α
  soh_history : List α
  r0_history : List α

/-- The dict returned by `SOHEstimator.update` (values rounded exactly as in
the source). -/
structure SOHOut (α : Type) where
  soh : α
  soh_capacity : α
  soh_resistance : α
  full_cycles : α
  rul_cycles : α
  rul_days : α
  r0_ema : α
  ah_throughput : α

/-- `SOHEstimator.__init__(nominal_capacity_ah, nominal_R0, soh_eol_pct,
nominal_cycle_life)`; `now` is the value of `time.time()` at construction. -/
def sohInit {α : Type} [LinearOrderedField α]
    (nominal_capacity_ah nominal_R0 soh_eol_pct : α)
    (nominal_cycle_life : ℕ) (now : α) : SOHState α :=
  { Q_nominal := nominal_capacity_ah
    R0_new := nominal_R0
    soh_eol := soh_eol_pct
    nominal_cycle_life := nominal_cycle_life
    soh_capacity := 100
    soh_resistance := 100
    soh_combined := 100
    full_cycles := 0
    charge_accumulated_ah := 0
    last_soc := none
    soc_direction := 0
    r0_ema := nominal_R0
    r0_alpha := 5 / 100
    total_ah_throughput := 0
    start_time := now
    last_update_time := now
    soh_history := []
    r0_history := [] }

/-- `SOHEstimator.update(soc, current_a, r0_measured, dt)`.  The `dt`
argument is part of the Python signature but is never read by the body: the
body derives its own time increment from `time.time()` (here the explicit
`now`), capped at 10 s. -/
def sohUpdate {α : Type} [LinearOrderedField α] [FloorRing α]
    (s : SOHState α) (soc current_a r0_measured dt now : α) :
    SOHState α × SOHOut α :=
  let _ := dt
  let dt_actual := min (now - s.last_update_time) 10
  -- 1. Coulomb counting for cycle tracking
  let dq_ah := |current_a| * dt_actual / 3600
  let total_ah := s.total_ah_throughput + dq_ah
  let counted : α × α :=
    match s.last_soc with
    | none => (s.charge_accumulated_ah, s.full_cycles)
    | some prev =>
      let dsoc := soc - prev
      if dsoc < -(1 / 1000) then
        (s.charge_accumulated_ah + |current_a| * dt_actual / 3600, s.full_cycles)
      else if dsoc > 1 / 1000 then
        if s.charge_accumulated_ah > 0 then
          (0, s.full_cycles + s.charge_accumulated_ah / max s.Q_nominal (1 / 10))
        else (s.charge_accumulated_ah, s.full_cycles)
      else (s.charge_accumulated_ah, s.full_cycles)
  let charge_acc := counted.1
  let full_cycles := counted.2
  -- 2. Capacity-based SOH (linear degradation model)
  let capacity_loss_pct := full_cycles * capacityFadePerCyclePct
  let soh_capacity := clip (100 - capacity_loss_pct) (s.soh_eol - 5) 100
  -- 3. Resistance-based SOH
  let r0_ema :=
    if r0_measured > 1 / 100 then
      (1 - s.r0_alpha) * s.r0_ema + s.r0_alpha * r0_measured
    else s.r0_ema
  let r0_eol := s.R0_new * 2
  let r0_increase_fraction := (r0_ema - s.R0_new) / max (r0_eol - s.R0_new) (1 / 10000)
  let soh_resistance := clip (100 - r0_increase_fraction * 20) (s.soh_eol - 5) 100
  -- 4. Combined SOH (weighted: 70% capacity, 30% resistance)
  let soh_combined := clip (7 / 10 * soh_capacity + 3 / 10 * soh_resistance)
    (s.soh_eol - 5) 100
  -- 5. RUL estimation
  let soh_remaining := max (soh_combined - s.soh_eol) 0
  let soh_per_cycle := max capacityFadePerCyclePct (1 / 1000)
  let rul_cycles := soh_remaining / soh_per_cycle
  let runtime_days := (now - s.start_time) / 86400 + 1 / 1000
  let cycles_per_day := max (full_cycles / runtime_days) (1 / 100)
  let rul_days := min (rul_cycles / cycles_per_day) 3650
  ({ s with
      last_update_time := now
      total_ah_throughput := total_ah
      charge_accumulated_ah := charge_acc
      full_cycles := full_cycles
      last_soc := some soc
      soh_capacity := soh_capacity
      soh_resistance := soh_resistance
      soh_combined := soh_combined
      r0_ema := r0_ema
      soh_history := pushBounded s.soh_history soh_combined 200
      r0_history := pushBounded s.r0_history r0_ema 200 },
   { soh := roundTo soh_combined 2
     soh_capacity := roundTo soh_capacity 2
     soh_resistance := roundTo soh_resistance 2
     full_cycles := roundTo full_cycles 3
     rul_cycles := roundTo rul_cycles 1
     rul_days := roundTo rul_days 1
     r0_ema := roundTo r0_ema 5
     ah_throughput := roundTo total_ah 4 })

/-- One logical call record for `SOHEstimator.update`. -/
structure SOHInp (α : Type) where
  soc : α
  current_a : α
  r0_measured : α
  dt : α
  now : α

/-- A sequence of `SOHEstimator.update` calls, keeping only the estimator
state. -/
def sohFold {α : Type} [LinearOrderedField α] [FloorRing α]
    (s : SOHState α) (l : List (SOHInp α)) : SOHState α :=
  l.foldl (fun st inp =>
    (sohUpdate st inp.soc inp.current_a inp.r0_measured inp.dt inp.now).1) s

/-! ## OCV/ECM provider — `dfn_model/pybamm_interface.py`, class `DFNInterface` -/

/-- Module constant `_FALLBACK_SOC` (Chen2020 literature table, SOC axis). -/
def fallbackSoc : List ℚ :=
  [0, 5/100, 10/100, 15/100, 20/100, 25/100, 30/100, 35/100, 40/100,
   45/100, 50/100, 55/100, 60/100, 65/100, 70/100, 75/100, 80/100, 85/100,
   90/100, 95/100, 1]

/-- Module constant `_FALLBACK_OCV` (Chen2020 literature table, OCV axis). -/
def fallbackOcv : List ℚ :=
  [3, 327/100, 349/100, 355/100, 359/100, 362/100, 366/100, 369/100,
   372/100, 374/100, 376/100, 378/100, 380/100, 383/100, 386/100, 389/100,
   393/100, 397/100, 402/100, 410/100, 420/100]

/-- `np.interp(x, xp, fp)` for an increasing grid `xp`: constant
extrapolation below the first and above the last grid point, linear
interpolation between neighbours. -/
def interp {α : Type} [LinearOrderedField α] (x : α) : List α → List α → α
  | x0 :: x1 :: xs, f0 :: f1 :: fs =>
    if x ≤ x0 then f0
    else if x ≤ x1 then f0 + (f1 - f0) * (x - x0) / (x1 - x0)
    else interp x (x1 :: xs) (f1 :: fs)
  | [x0], [f0] =>
    let _ := x0
    f0
  | _, _ => 0

/-- ECM parameter triple `{R0, R1, C1}` returned by
`DFNInterface.get_ecm_params`. -/
structure EcmParams where
  R0 : ℚ
  R1 : ℚ
  C1 : ℚ

/-- Shared state of a `DFNInterface` instance (`__init__`).  Only the data
fields are modelled; the lock and thread handles have no pure content. -/
structure DFNState where
  parameter_set : String
  cell_capacity_ah : ℚ
  ocv_soc : List ℚ
  ocv_v : List ℚ
  ecm_R0 : ℚ
  ecm_R1 : ℚ
  ecm_C1 : ℚ
  is_ready : Bool
  status : String
  error : String
  pybamm_version : String
  dfn_last_voltage : ℚ
  dfn_last_soc : ℚ
  dfn_last_run_ts : ℚ

/-- `DFNInterface.__init__(parameter_set, cell_capacity_ah)`. -/
def dfnNew (parameter_set : String) (cell_capacity_ah : ℚ) : DFNState :=
  { parameter_set := parameter_set
    cell_capacity_ah := cell_capacity_ah
    ocv_soc := []
    ocv_v := []
    ecm_R0 := 62/1000
    ecm_R1 := 35/1000
    ecm_C1 := 2500
    is_ready := false
    status := "not_started"
    error := ""
    pybamm_version := ""
    dfn_last_voltage := 0
    dfn_last_soc := 1/2
    dfn_last_run_ts := 0 }

/-- `DFNInterface._get_ocv_arrays`: the stored table if non-empty, else the
literature fallback table. -/
def ocvTablePair (s : DFNState) : List ℚ × List ℚ :=
  if s.ocv_soc ≠ [] then (s.ocv_soc, s.ocv_v) else (fallbackSoc, fallbackOcv)

/-- `DFNInterface.ocv_from_soc(soc, temperature_c)`: clamp SOC, interpolate
the table, apply the −0.8 mV/°C temperature correction. -/
def ocvFromSoc {α : Type} [LinearOrderedField α]
    (s : DFNState) (soc temperature_c : α) : α :=
  let tb := ocvTablePair s
  let ocv_25 := interp (clip soc 0 1)
    (tb.1.map (fun (q : ℚ) => (q : α))) (tb.2.map (fun (q : ℚ) => (q : α)))
  ocv_25 - 8/10000 * (temperature_c - 25)

/-- `DFNInterface.soc_from_ocv(ocv, temperature_c)`: undo the temperature
correction, invert the table, clamp to `[0, 1]`. -/
def socFromOcv {α : Type} [LinearOrderedField α]
    (s : DFNState) (ocv temperature_c : α) : α :=
  let tb := ocvTablePair s
  let ocv_25 := ocv + 8/10000 * (temperature_c - 25)
  clip (interp ocv_25
    (tb.2.map (fun (q : ℚ) => (q : α))) (tb.1.map (fun (q : ℚ) => (q : α)))) 0 1

/-- `DFNInterface.docv_dsoc(soc, temperature_c)`: central finite difference
of `ocv_from_soc` with step `1e-4`. -/
def docvDsoc {α : Type} [LinearOrderedField α]
    (s : DFNState) (soc temperature_c : α) : α :=
  let delta : α := 1/10000
  let hi := ocvFromSoc s (min (soc + delta) 1) temperature_c
  let lo := ocvFromSoc s (max (soc - delta) 0) temperature_c
  (hi - lo) / (2 * delta)

/-- `DFNInterface.get_ecm_params`. -/
def getEcmParams (s : DFNState) : EcmParams :=
  { R0 := s.ecm_R0, R1 := s.ecm_R1, C1 := s.ecm_C1 }

/-- Control-flow outcome of one run of `DFNInterface._initialize`: the cache
was hit, the PyBaMM table/ECM generation succeeded, or some exception was
raised along the way (import error, solver failure, ...). -/
inductive InitOutcome where
  | cacheHit (ocv_soc ocv_v : List ℚ) (R0 R1 C1 : ℚ)
  | generated (ocv_soc ocv_v : List ℚ) (R0 R1 C1 : ℚ)
  | failed (msg : String)

/-- `DFNInterface._initialize`, as a function of the attempted work's
outcome: a cache hit installs the cached table/ECM and reports
`"ready (cache)"`; a successful generation installs the fresh table/ECM and
reports `"ready"`; any exception installs the literature fallback table,
records the error, and reports `"ready (fallback)"`.  All three exits set
`is_ready := true`. -/
def applyInitOutcome (s : DFNState) (o : InitOutcome) : DFNState :=
  match o with
  | .cacheHit soc v r0 r1 c1 =>
    { s with ocv_soc := soc, ocv_v := v, ecm_R0 := r0, ecm_R1 := r1,
             ecm_C1 := c1, is_ready := true, status := "ready (cache)" }
  | .generated soc v r0 r1 c1 =>
    { s with ocv_soc := soc, ocv_v := v, ecm_R0 := r0, ecm_R1 := r1,
             ecm_C1 := c1, is_ready := true, status := "ready" }
  | .failed msg =>
    { s with ocv_soc := fallbackSoc, ocv_v := fallbackOcv,
             is_ready := true, status := "ready (fallback)", error := msg }

/-! ## EKF SOC estimator — `dfn_model/ekf_soc.py`, class `EKFSoCEstimator`

The filter's arithmetic is over `ℝ` (it needs `exp` and `sqrt`); the 2×2
numpy matrices become an explicit four-entry structure. -/

/-- A 2×2 real matrix, row major: `[[a, b], [c, d]]`. -/
structure Mat2 where
  a : ℝ
  b : ℝ
  c : ℝ
  d : ℝ

/-- A real 2-vector. -/
structure Vec2 where
  x : ℝ
  y : ℝ

/-- Matrix product. -/
def Mat2.mul (M N : Mat2) : Mat2 :=
  ⟨M.a * N.a + M.b * N.c, M.a * N.b + M.b * N.d,
   M.c * N.a + M.d * N.c, M.c * N.b + M.d * N.d⟩

/-- Entrywise sum. -/
def Mat2.add (M N : Mat2) : Mat2 :=
  ⟨M.a + N.a, M.b + N.b, M.c + N.c, M.d + N.d⟩

/-- Entrywise difference. -/
def Mat2.sub (M N : Mat2) : Mat2 :=
  ⟨M.a - N.a, M.b - N.b, M.c - N.c, M.d - N.d⟩

/-- Transpose. -/
def Mat2.transpose (M : Mat2) : Mat2 :=
  ⟨M.a, M.c, M.b, M.d⟩

/-- `np.eye(2)`. -/
def Mat2.id : Mat2 := ⟨1, 0, 0, 1⟩

/-- `np.diag([p, q])`. -/
def Mat2.diag (p q : ℝ) : Mat2 := ⟨p, 0, 0, q⟩

/-- Matrix–vector product. -/
def Mat2.mulVec (M : Mat2) (v : Vec2) : Vec2 :=
  ⟨M.a * v.x + M.b * v.y, M.c * v.x + M.d * v.y⟩

/-- Dot product. -/
def Vec2.dot (u v : Vec2) : ℝ := u.x * v.x + u.y * v.y

/-- `np.outer(u, v)`. -/
def Mat2.outer (u v : Vec2) : Mat2 :=
  ⟨u.x * v.x, u.x * v.y, u.y * v.x, u.y * v.y⟩

/-- Symmetric positive-semi-definite: equal off-diagonal entries and a
nonnegative quadratic form. -/
def IsSymPSD (M : Mat2) : Prop :=
  M.b = M.c ∧ ∀ x y : ℝ, 0 ≤ M.a * x ^ 2 + (M.b + M.c) * x * y + M.d * y ^ 2

/-- Innovation covariance `S = H @ P_pred @ H.T + R` (a scalar, since `H` is
a row vector). -/
def kalmanS (Pp : Mat2) (hv : Vec2) (R : ℝ) : ℝ :=
  hv.dot (Pp.mulVec hv) + R

/-- Kalman gain `K = (P_pred @ H.T) / S`. -/
noncomputable def kalmanK (Pp : Mat2) (hv : Vec2) (R : ℝ) : Vec2 :=
  ⟨(Pp.mulVec hv).x / kalmanS Pp hv R, (Pp.mulVec hv).y / kalmanS Pp hv R⟩

/-- Posterior covariance `P = (I - np.outer(K, H)) @ P_pred`. -/
noncomputable def kalmanPostP (Pp : Mat2) (hv : Vec2) (R : ℝ) : Mat2 :=
  (Mat2.id.sub (Mat2.outer (kalmanK Pp hv R) hv)).mul Pp

/-- Mutable attributes of an `EKFSoCEstimator` instance; `x0, x1` are the
two components of the state vector `x = [SOC, V_RC]`. -/
structure EKFState where
  Q_As : ℝ
  R0 : ℝ
  R1 : ℝ
  C1 : ℝ
  tau1 : ℝ
  eta : ℝ
  temp_c : ℝ
  x0 : ℝ
  x1 : ℝ
  P : Mat2
  Q_noise : Mat2
  R_noise : ℝ
  initialized : Bool

/-- `EKFSoCEstimator.__init__(dfn_model, capacity_ah, R0, R1, C1, eta,
temp_c)` (the provider reference is passed to each call instead of being
stored). -/
noncomputable def ekfInit (capacity_ah R0 R1 C1 eta temp_c : ℝ) : EKFState :=
  { Q_As := capacity_ah * 3600
    R0 := R0
    R1 := R1
    C1 := C1
    tau1 := R1 * C1
    eta := eta
    temp_c := temp_c
    x0 := 9/10
    x1 := 0
    P := Mat2.diag (1/100) (1/1000)
    Q_noise := Mat2.diag (1/100000) (1/1000000)
    R_noise := (5/1000) ^ 2
    initialized := false }

/-- The dict returned by `EKFSoCEstimator.update`. -/
structure EKFOut where
  soc : ℝ
  v_rc : ℝ
  v_predicted : ℝ
  innovation : ℝ
  sigma_soc : ℝ
  ocv : ℝ
  R0 : ℝ
  R1 : ℝ

/-- The head of `EKFSoCEstimator.update`: store the temperature, bootstrap
from the measured voltage on the first call
(`initialize_from_voltage`), and refresh `R0, R1, C1, tau1` from the
provider with the `tau1 ≥ 1` floor. -/
noncomputable def ekfPrepared (dfn : DFNState) (st : EKFState)
    (v_measured temp_c : ℝ) : EKFState :=
  let st1 :=
    if st.initialized then { st with temp_c := temp_c }
    else
      { st with
          temp_c := temp_c
          x0 := socFromOcv dfn v_measured temp_c
          x1 := 0
          P := Mat2.diag (5/1000) (1/1000)
          initialized := true }
  let ecm := getEcmParams dfn
  { st1 with
      R0 := (ecm.R0 : ℝ)
      R1 := (ecm.R1 : ℝ)
      C1 := (ecm.C1 : ℝ)
      tau1 := max ((ecm.R1 : ℝ) * (ecm.C1 : ℝ)) 1 }

/-- All intermediate quantities of one `EKFSoCEstimator.update` call. -/
structure EKFTrace where
  socPred : ℝ
  vRcPred : ℝ
  vhat : ℝ
  S : ℝ
  state : EKFState
  out : EKFOut

/-- `EKFSoCEstimator.update(v_measured, current_a, dt, temp_c)`: one
predict+update step, with every intermediate value exposed in the trace. -/
noncomputable def ekfRun (dfn : DFNState) (st : EKFState)
    (v_measured current_a dt temp_c : ℝ) : EKFTrace :=
  let st1 := ekfPrepared dfn st v_measured temp_c
  -- PREDICT
  let alpha := Real.exp (-dt / st1.tau1)
  let soc_pred := clip (st1.x0 - st1.eta * current_a * dt / st1.Q_As) 0 1
  let v_rc_pred := alpha * st1.x1 + st1.R1 * (1 - alpha) * current_a
  let F : Mat2 := ⟨1, 0, 0, alpha⟩
  let P_pred := ((F.mul st1.P).mul F.transpose).add st1.Q_noise
  -- UPDATE
  let ocv := ocvFromSoc dfn soc_pred temp_c
  let v_hat := ocv + current_a * st1.R0 + v_rc_pred
  let innovation := v_measured - v_hat
  let docv_ds := docvDsoc dfn soc_pred temp_c
  let Hv : Vec2 := ⟨docv_ds, 1⟩
  let S := kalmanS P_pred Hv st1.R_noise
  let K := kalmanK P_pred Hv st1.R_noise
  let x0' := clip (soc_pred + K.x * innovation) 0 1
  let x1' := v_rc_pred + K.y * innovation
  let P' := kalmanPostP P_pred Hv st1.R_noise
  let st2 := { st1 with x0 := x0', x1 := x1', P := P' }
  { socPred := soc_pred
    vRcPred := v_rc_pred
    vhat := v_hat
    S := S
    state := st2
    out :=
      { soc := x0'
        v_rc := x1'
        v_predicted := v_hat
        innovation := innovation
        sigma_soc := Real.sqrt P'.a
        ocv := ocv
        R0 := st1.R0
        R1 := st1.R1 } }

/-- The filter's own predicted terminal voltage for the coming call,
`OCV(soc_pred) + I*R0 + v_rc_pred` (for an initialized filter the measured
voltage only enters the innovation, so the dummy measurement 0 is
irrelevant here). -/
noncomputable def ekfVhat (dfn : DFNState) (st : EKFState)
    (current_a dt temp_c : ℝ) : ℝ :=
  (ekfRun dfn st 0 current_a dt temp_c).vhat

/-- One logical call record for `EKFSoCEstimator.update` (the provider state
is read fresh each step, so each call carries its own provider snapshot). -/
structure EKFInp where
  dfn : DFNState
  v_measured : ℝ
  current_a : ℝ
  dt : ℝ
  temp_c : ℝ

/-- A sequence of `EKFSoCEstimator.update` calls, keeping only the filter
state. -/
noncomputable def ekfFold (st : EKFState) (l : List EKFInp) : EKFState :=
  l.foldl (fun s inp =>
    (ekfRun inp.dfn s inp.v_measured inp.current_a inp.dt inp.temp_c).state) st

/-! ## Orchestrator — `dfn_model/battery_twin.py`, class `BatteryDigitalTwin` -/

/-- Mutable attributes of a `BatteryDigitalTwin` instance.  The EKF/SOH pair
is absent until the provider becomes ready (`None` in Python). -/
structure TwinState where
  cell_capacity_ah : ℝ
  dfn_bg_interval : ℝ
  dfn : DFNState
  ekf : Option EKFState
  soh : Option (SOHState ℝ)
  current_buffer : List ℝ
  last_dfn_bg_time : ℝ
  step_count : ℕ
  start_time : ℝ

/-- The flat result dict returned by `BatteryDigitalTwin.step`.  There is no
error variant: every call produces one of these. -/
structure StepResult where
  soc_ekf : ℝ
  soc_pct : ℝ
  ocv : ℝ
  v_predicted : ℝ
  v_measured : ℝ
  innovation : ℝ
  sigma_soc : ℝ
  r0 : ℝ
  soh : ℝ
  soh_capacity : ℝ
  soh_resistance : ℝ
  rul_days : ℝ
  rul_cycles : ℝ
  full_cycles : ℝ
  r0_ema : ℝ
  dfn_ready : Bool
  dfn_status : String
  dfn_soc : ℝ
  dfn_voltage : ℝ
  step_count : ℕ
  uptime_s : ℝ

/-- `BatteryDigitalTwin.__init__(parameter_set, cell_capacity_ah,
dfn_bg_interval_s)`; `initialize_async` has synchronously set the provider
status to `"initializing"` (its background completion is
`applyInitOutcome`). -/
def twinInit (parameter_set : String) (cell_capacity_ah : ℚ)
    (dfn_bg_interval_s : ℝ) (now : ℝ) : TwinState :=
  { cell_capacity_ah := (cell_capacity_ah : ℝ)
    dfn_bg_interval := dfn_bg_interval_s
    dfn := { dfnNew parameter_set cell_capacity_ah with status := "initializing" }
    ekf := none
    soh := none
    current_buffer := []
    last_dfn_bg_time := 0
    step_count := 0
    start_time := now }

/-- Local variables of the EKF branch of `step`: the possibly updated
filter, and `soc_ekf, ocv, v_pred, innovation, sigma_soc, r0`. -/
structure EkfBranch where
  ekf : Option EKFState
  soc_ekf : ℝ
  ocv : ℝ
  v_pred : ℝ
  innovation : ℝ
  sigma_soc : ℝ
  r0 : ℝ

/-- Local variables of the SOH branch of `step`: the possibly updated
estimator and the `soh_result.get(...)` values with their defaults. -/
structure SohBranch where
  soh : Option (SOHState ℝ)
  soh_val : ℝ
  soh_capacity : ℝ
  soh_resistance : ℝ
  rul_days : ℝ
  rul_cycles : ℝ
  full_cycles : ℝ
  r0_ema : ℝ

/-- `BatteryDigitalTwin.step(voltage_v, current_ma, temperature_c, dt)`:
lazily create the EKF/SOH pair once the provider is ready, run the EKF (or
fall back to direct OCV inversion), run the SOH estimator when present,
throttle the background high-fidelity request (modelled by its only
synchronous effect, the throttle timestamp), and package the result
snapshot.  `now` is `time.time()` during this call. -/
noncomputable def twinStep (s : TwinState)
    (voltage_v current_ma temperature_c dt now : ℝ) : TwinState × StepResult :=
  let current_a := current_ma / 1000
  let buf := pushBounded s.current_buffer current_ma 60
  -- lazy create EKF / SOH once DFN is ready
  let pair : Option EKFState × Option (SOHState ℝ) :=
    if s.ekf.isNone && s.dfn.is_ready then
      let ecm := getEcmParams s.dfn
      (some (ekfInit s.cell_capacity_ah (ecm.R0 : ℝ) (ecm.R1 : ℝ) (ecm.C1 : ℝ)
          (98/100) temperature_c),
       some (sohInit (α := ℝ) s.cell_capacity_ah (ecm.R0 : ℝ) 80 500 now))
    else (s.ekf, s.soh)
  -- run EKF, or raw OCV inversion when the filter does not exist yet
  let eb : EkfBranch :=
    match pair.1 with
    | some e =>
      let tr := ekfRun s.dfn e voltage_v current_a dt temperature_c
      { ekf := some tr.state
        soc_ekf := tr.out.soc
        ocv := tr.out.ocv
        v_pred := tr.out.v_predicted
        innovation := tr.out.innovation
        sigma_soc := tr.out.sigma_soc
        r0 := tr.out.R0 }
    | none =>
      let soc := socFromOcv s.dfn voltage_v temperature_c
      { ekf := none
        soc_ekf := soc
        ocv := ocvFromSoc s.dfn soc temperature_c
        v_pred := voltage_v
        innovation := 0
        sigma_soc := 5/100
        r0 := 62/1000 }
  -- update SOH when the estimator exists
  let sb : SohBranch :=
    match pair.2 with
    | some so =>
      let r := sohUpdate so eb.soc_ekf current_a eb.r0 dt now
      { soh := some r.1
        soh_val := r.2.soh
        soh_capacity := r.2.soh_capacity
        soh_resistance := r.2.soh_resistance
        rul_days := r.2.rul_days
        rul_cycles := r.2.rul_cycles
        full_cycles := r.2.full_cycles
        r0_ema := r.2.r0_ema }
    | none =>
      { soh := none
        soh_val := 100
        soh_capacity := 100
        soh_resistance := 100
        rul_days := 0
        rul_cycles := 0
        full_cycles := 0
        r0_ema := eb.r0 }
  -- throttled background high-fidelity request (fire-and-forget: the only
  -- synchronous state change is the throttle timestamp)
  let last_bg :=
    if now - s.last_dfn_bg_time > s.dfn_bg_interval ∧ 5 ≤ buf.length ∧
        s.dfn.is_ready = true then now
    else s.last_dfn_bg_time
  let count := s.step_count + 1
  let result : StepResult :=
    { soc_ekf := roundTo eb.soc_ekf 4
      soc_pct := roundTo (eb.soc_ekf * 100) 2
      ocv := roundTo eb.ocv 4
      v_predicted := roundTo eb.v_pred 4
      v_measured := roundTo voltage_v 4
      innovation := roundTo eb.innovation 5
      sigma_soc := roundTo eb.sigma_soc 5
      r0 := roundTo eb.r0 5
      soh := sb.soh_val
      soh_capacity := sb.soh_capacity
      soh_resistance := sb.soh_resistance
      rul_days := sb.rul_days
      rul_cycles := sb.rul_cycles
      full_cycles := sb.full_cycles
      r0_ema := sb.r0_ema
      dfn_ready := s.dfn.is_ready
      dfn_status := s.dfn.status
      dfn_soc := roundTo ((s.dfn.dfn_last_soc : ℝ) * 100) 2
      dfn_voltage := roundTo (s.dfn.dfn_last_voltage : ℝ) 4
      step_count := count
      uptime_s := roundTo (now - s.start_time) 1 }
  ({ s with
      ekf := eb.ekf
      soh := sb.soh
      current_buffer := buf
      last_dfn_bg_time := last_bg
      step_count := count },
   result)

/-! ## Concrete instances used by witnesses and counterexamples -/

/-- A freshly constructed provider (`DFNInterface("Chen2020", 2.0)`): not
ready, empty table (so reads hit the fallback table). -/
def dfnFresh : DFNState := dfnNew "Chen2020" 2

/-- A freshly constructed `SOHEstimator(2.0, 0.062, 80.0, 500)` at wall
clock 0, over `ℚ`. -/
def sohQ0 : SOHState ℚ := sohInit 2 (62/1000) 80 500 0

/-- After one update at rest (`soc = 1`): seeds `last_soc`. -/
def sohQ1 : SOHState ℚ := (sohUpdate sohQ0 1 0 (62/1000) 2 10).1

/-- After a 10 s discharge step at 72000 A taking SOC from 1 to 0.9:
accumulates `72000·10/3600 = 200 Ah` of discharge half-cycle charge. -/
def sohQ2 : SOHState ℚ := (sohUpdate sohQ1 (9/10) 72000 (62/1000) 2 20).1

/-- The reversal step (SOC rises to 0.95): flushes the 200 Ah into
`200/2 = 100` equivalent full cycles and reports SOH/RUL. -/
def sohC1Out : SOHOut ℚ := (sohUpdate sohQ2 (95/100) 0 (62/1000) 2 30).2

/-- An estimator state that has accumulated exactly 100 equivalent full
cycles with the resistance EMA still at the fresh-cell value. -/
def sohHundred : SOHState ℚ :=
  { sohQ0 with full_cycles := 100, last_soc := some (1/2) }

/-- A default-parameter EKF whose first call has already happened. -/
noncomputable def ekfW : EKFState :=
  { ekfInit 2 (62/1000) (35/1000) 2500 (98/100) 25 with initialized := true }

/-- A freshly constructed twin (`BatteryDigitalTwin()` at wall clock 0):
provider still initializing, EKF/SOH pair absent. -/
def twinW : TwinState := twinInit "Chen2020" 2 120 0

/-! ## Theorems -/

theorem clip_le {α : Type} [LinearOrder α] (x lo hi : α) : clip x lo hi ≤ hi :=
  min_le_right _ _

theorem le_clip {α : Type} [LinearOrder α] (x lo hi : α) (h : lo ≤ hi) :
    lo ≤ clip x lo hi :=
  le_min (le_max_right x lo) h

theorem clip_idem {α : Type} [LinearOrder α] (x lo hi : α) (h : lo ≤ hi) :
    clip (clip x lo hi) lo hi = clip x lo hi := by
  have h1 := le_clip x lo hi h
  have h2 := clip_le x lo hi
  unfold clip at h1 h2 ⊢
  rw [max_eq_left h1, min_eq_left h2]

theorem roundTo_zero {α : Type} [LinearOrderedField α] [FloorRing α] (n : ℕ) :
    roundTo (0 : α) n = 0 := by
  simp [roundTo, roundHalfEven]

/-- C9: `SOHEstimator.update` ignores its `dt` argument entirely — two calls
from the same state at the same wall-clock instant with different `dt`
return identical state and dict — and the time increment actually used for
Coulomb counting is the wall-clock elapsed time since the previous call,
capped at 10 seconds. -/
theorem soh_update_ignores_dt {α : Type} [LinearOrderedField α] [FloorRing α]
    (s : SOHState α) (soc current_a r0_measured dt1 dt2 now : α) :
    sohUpdate s soc current_a r0_measured dt1 now =
      sohUpdate s soc current_a r0_measured dt2 now ∧
    (sohUpdate s soc current_a r0_measured dt1 now).1.total_ah_throughput =
      s.total_ah_throughput +
        |current_a| * min (now - s.last_update_time) 10 / 3600 :=
  ⟨rfl, rfl⟩

/-- C10: every exit of `DFNInterface._initialize` ends with
`is_ready = true` — the failure exit in particular installs the literature
fallback table, records the error string, and reports
`"ready (fallback)"` — so readiness never certifies that physics-based
table generation succeeded. -/
theorem dfn_init_always_ready (s : DFNState) (o : InitOutcome) :
    (applyInitOutcome s o).is_ready = true ∧
    (∀ msg, o = .failed msg →
      (applyInitOutcome s o).status = "ready (fallback)" ∧
      (applyInitOutcome s o).ocv_soc = fallbackSoc ∧
      (applyInitOutcome s o).ocv_v = fallbackOcv ∧
      (applyInitOutcome s o).error = msg) := by
  refine ⟨?_, ?_⟩
  · cases o <;> rfl
  · rintro msg rfl
    exact ⟨rfl, rfl, rfl, rfl⟩

/-- Closed instance of `dfn_init_always_ready` at a fresh provider and a
failed initialization. -/
theorem dfn_init_always_ready_witness :
    (applyInitOutcome dfnFresh (.failed "pybamm not installed")).is_ready = true ∧
    (applyInitOutcome dfnFresh (.failed "pybamm not installed")).status =
      "ready (fallback)" ∧
    (applyInitOutcome dfnFresh (.failed "pybamm not installed")).error =
      "pybamm not installed" :=
  ⟨(dfn_init_always_ready dfnFresh _).1,
   ((dfn_init_always_ready dfnFresh _).2 _ rfl).1,
   ((dfn_init_always_ready dfnFresh _).2 _ rfl).2.2.2⟩

/-- C4: one `SOHEstimator.update` call never decreases `full_cycles` or
`ah_throughput`, whatever the sign and magnitude of the current — the only
assumption is that wall-clock time does not run backwards between calls. -/
theorem soh_counters_monotone {α : Type} [LinearOrderedField α] [FloorRing α]
    (s : SOHState α) (soc current_a r0_measured dt now : α)
    (h : s.last_update_time ≤ now) :
    s.full_cycles ≤
      (sohUpdate s soc current_a r0_measured dt now).1.full_cycles ∧
    s.total_ah_throughput ≤
      (sohUpdate s soc current_a r0_measured dt now).1.total_ah_throughput := by
  have hdt : 0 ≤ min (now - s.last_update_time) 10 :=
    le_min (sub_nonneg.mpr h) (by norm_num)
  have hdq : 0 ≤ |current_a| * min (now - s.last_update_time) 10 / 3600 := by
    have := abs_nonneg current_a
    positivity
  constructor
  · simp only [sohUpdate]
    rcases hsl : s.last_soc with _ | prev
    · simp
    · simp only []
      split_ifs with h1 h2 h3
      · exact le_refl _
      · have hq : (0 : α) < max s.Q_nominal (1/10) :=
          lt_of_lt_of_le (by norm_num) (le_max_right _ _)
        have : 0 ≤ s.charge_accumulated_ah / max s.Q_nominal (1/10) :=
          div_nonneg (le_of_lt h3) (le_of_lt hq)
        linarith
      · exact le_refl _
      · exact le_refl _
  · simp only [sohUpdate]
    linarith

/-- Closed instance of `soh_counters_monotone` at a fresh estimator. -/
theorem soh_counters_monotone_witness :
    sohQ0.full_cycles ≤ (sohUpdate sohQ0 1 0 (62/1000) 2 1).1.full_cycles ∧
    sohQ0.total_ah_throughput ≤
      (sohUpdate sohQ0 1 0 (62/1000) 2 1).1.total_ah_throughput :=
  soh_counters_monotone sohQ0 1 0 (62/1000) 2 1 (by norm_num [sohQ0, sohInit])

/-- C1 as frozen is false on the code: after exactly 100 equivalent full
cycles at nominal resistance the reported `soh_capacity` is 96.0, but
`rul_cycles` is computed from the combined SOH (97.2), giving 430, not
`(soh_capacity − 80)/0.04 = 400`.  This run reaches exactly 100 cycles by
Coulomb counting and exhibits the gap. -/
theorem soh_rul_formula_counterexample :
    sohC1Out.full_cycles = 100 ∧ sohC1Out.soh_capacity = 96 ∧
    sohC1Out.rul_cycles = 430 ∧
    ¬ (|sohC1Out.rul_cycles - (sohC1Out.soh_capacity - 80) / (4/100)| ≤ 1/10) := by
  norm_num [sohC1Out, sohQ2, sohQ1, sohQ0, sohUpdate, sohInit, roundTo,
    roundHalfEven, clip, pushBounded, capacityFadePerCyclePct]

/-- C1 (amended): with exactly 100 equivalent full cycles accumulated at the
default fade rate and resistance readings held at the fresh-cell `R0`,
`SOHEstimator.update` reports `soh_capacity = 96.0` within ±0.1 and
`rul_cycles = (soh_combined − 80)/0.04` (the reported `soh` field) within
the same tolerance. -/
theorem soh_hundred_cycles_report {α : Type} [LinearOrderedField α]
    [FloorRing α] (s : SOHState α) (soc current_a dt now : α)
    (hfc : s.full_cycles = 100) (hema : s.r0_ema = s.R0_new)
    (heol : s.soh_eol = 80) (hlast : s.last_soc = some soc) :
    |(sohUpdate s soc current_a s.R0_new dt now).2.soh_capacity - 96| ≤ 1/10 ∧
    |(sohUpdate s soc current_a s.R0_new dt now).2.rul_cycles -
      ((sohUpdate s soc current_a s.R0_new dt now).2.soh - 80) / (4/100)| ≤
      1/10 := by
  have hr0 : (if s.R0_new > 1/100 then
      (1 - s.r0_alpha) * s.r0_ema + s.r0_alpha * s.R0_new else s.r0_ema) =
      s.R0_new := by
    split_ifs
    · rw [hema]; ring
    · exact hema
  simp only [sohUpdate, hlast, hfc, heol, hr0]
  norm_num [capacityFadePerCyclePct, clip, roundTo, roundHalfEven]

/-- Closed instance of `soh_hundred_cycles_report` at a concrete
100-cycle state. -/
theorem soh_hundred_cycles_report_witness :
    |(sohUpdate sohHundred (1/2) 0 sohHundred.R0_new 2 5).2.soh_capacity -
      96| ≤ 1/10 ∧
    |(sohUpdate sohHundred (1/2) 0 sohHundred.R0_new 2 5).2.rul_cycles -
      ((sohUpdate sohHundred (1/2) 0 sohHundred.R0_new 2 5).2.soh - 80) /
        (4/100)| ≤ 1/10 :=
  soh_hundred_cycles_report sohHundred (1/2) 0 2 5 rfl rfl rfl rfl

/-- One-step unfolding of `interp` on a two-or-more point table. -/
theorem interp_cons_cons {α : Type} [LinearOrderedField α]
    (x x0 x1 f0 f1 : α) (xs fs : List α) :
    interp x (x0 :: x1 :: xs) (f0 :: f1 :: fs) =
      if x ≤ x0 then f0
      else if x ≤ x1 then f0 + (f1 - f0) * (x - x0) / (x1 - x0)
      else interp x (x1 :: xs) (f1 :: fs) := rfl

/-- `interp` on a one-point table is the constant output value. -/
theorem interp_single {α : Type} [LinearOrderedField α] (x x0 f0 : α) :
    interp x [x0] [f0] = f0 := rfl

/-- On a strictly increasing table, interpolation never falls below the
first output value. -/
theorem interp_ge_head {α : Type} [LinearOrderedField α] :
    ∀ (xs fs : List α) (x0 f0 x : α),
    List.Chain' (· < ·) (x0 :: xs) → List.Chain' (· < ·) (f0 :: fs) →
    (x0 :: xs).length = (f0 :: fs).length →
    f0 ≤ interp x (x0 :: xs) (f0 :: fs)
  | [], [], x0, f0, x, _, _, _ => le_of_eq (interp_single x x0 f0).symm
  | [], f1 :: fs, x0, f0, x, _, _, hlen => by simp at hlen
  | x1 :: xs, [], x0, f0, x, _, _, hlen => by simp at hlen
  | x1 :: xs, f1 :: fs, x0, f0, x, hcx, hcf, hlen => by
    have hx01 : x0 < x1 := (List.chain'_cons.mp hcx).1
    have hf01 : f0 < f1 := (List.chain'_cons.mp hcf).1
    rw [interp_cons_cons]
    split_ifs with h1 h2
    · exact le_refl f0
    · have hnum : 0 ≤ (f1 - f0) * (x - x0) / (x1 - x0) := by
        have hx : x0 < x := lt_of_not_le h1
        have h01 := sub_pos.mpr hx01
        have hf := sub_pos.mpr hf01
        have hxx := sub_pos.mpr hx
        positivity
      linarith
    · have ih := interp_ge_head xs fs x1 f1 x
        (List.chain'_cons.mp hcx).2 (List.chain'_cons.mp hcf).2
        (by simpa using hlen)
      linarith

/-- On a strictly increasing table with at least two points, interpolation
strictly above the first grid point lands strictly above the first output
value. -/
theorem interp_gt_head {α : Type} [LinearOrderedField α] :
    ∀ (xs fs : List α) (x0 x1 f0 f1 x : α),
    List.Chain' (· < ·) (x0 :: x1 :: xs) →
    List.Chain' (· < ·) (f0 :: f1 :: fs) →
    (x0 :: x1 :: xs).length = (f0 :: f1 :: fs).length →
    x0 < x →
    f0 < interp x (x0 :: x1 :: xs) (f0 :: f1 :: fs)
  | xs, fs, x0, x1, f0, f1, x, hcx, hcf, hlen, hx => by
    have hx01 : x0 < x1 := (List.chain'_cons.mp hcx).1
    have hf01 : f0 < f1 := (List.chain'_cons.mp hcf).1
    rw [interp_cons_cons]
    split_ifs with h1 h2
    · exact absurd hx (not_lt.mpr h1)
    · have hnum : 0 < (f1 - f0) * (x - x0) / (x1 - x0) := by
        have h01 := sub_pos.mpr hx01
        have hf := sub_pos.mpr hf01
        have hxx := sub_pos.mpr hx
        positivity
      linarith
    · rcases xs with _ | ⟨x2, xs⟩
      · rcases fs with _ | ⟨f2, fs⟩
        · rw [interp_single]
          exact hf01
        · simp at hlen
      · rcases fs with _ | ⟨f2, fs⟩
        · simp at hlen
        · have ih := interp_gt_head xs fs x1 x2 f1 f2 x
            (List.chain'_cons.mp hcx).2 (List.chain'_cons.mp hcf).2
            (by simpa using hlen) (lt_of_not_le h2)
          exact lt_trans hf01 ih

/-- Piecewise-linear interpolation on a strictly increasing table followed
by interpolation on the swapped table is the identity between the first and
last grid points. -/
theorem interp_roundtrip {α : Type} [LinearOrderedField α] :
    ∀ (xs fs : List α) (x0 f0 x : α),
    List.Chain' (· < ·) (x0 :: xs) → List.Chain' (· < ·) (f0 :: fs) →
    (x0 :: xs).length = (f0 :: fs).length →
    x0 ≤ x → x ≤ (x0 :: xs).getLast (List.cons_ne_nil x0 xs) →
    interp (interp x (x0 :: xs) (f0 :: fs)) (f0 :: fs) (x0 :: xs) = x
  | [], [], x0, f0, x, _, _, _, hlo, hhi => by
    have hx : x = x0 := le_antisymm (by simpa [List.getLast] using hhi) hlo
    subst hx
    simp only [interp_single]
  | [], f1 :: fs, x0, f0, x, _, _, hlen, _, _ => by simp at hlen
  | x1 :: xs, [], x0, f0, x, _, _, hlen, _, _ => by simp at hlen
  | x1 :: xs, f1 :: fs, x0, f0, x, hcx, hcf, hlen, hlo, hhi => by
    have hx01 : x0 < x1 := (List.chain'_cons.mp hcx).1
    have hf01 : f0 < f1 := (List.chain'_cons.mp hcf).1
    rw [interp_cons_cons x x0 x1 f0 f1 xs fs]
    split_ifs with h1 h2
    · -- x ≤ x0, so x = x0 and the forward value is f0
      have hx : x = x0 := le_antisymm h1 hlo
      subst hx
      rw [interp_cons_cons, if_pos (le_refl f0)]
    · -- x0 < x ≤ x1: inside the first segment
      have hx0 : x0 < x := lt_of_not_le h1
      have hxx0 := sub_pos.mpr hx0
      have hx10 := sub_pos.mpr hx01
      have hf10 := sub_pos.mpr hf01
      have hyg : f0 < f0 + (f1 - f0) * (x - x0) / (x1 - x0) := by
        have hpos : 0 < (f1 - f0) * (x - x0) / (x1 - x0) := by positivity
        linarith
      have hyl : f0 + (f1 - f0) * (x - x0) / (x1 - x0) ≤ f1 := by
        have hq : (f1 - f0) * (x - x0) / (x1 - x0) ≤ f1 - f0 := by
          rw [div_le_iff₀ hx10]
          nlinarith [mul_le_mul_of_nonneg_left (sub_le_sub_right h2 x0)
            (le_of_lt hf10)]
        linarith
      rw [interp_cons_cons, if_neg (not_le.mpr hyg), if_pos hyl]
      field_simp
      ring
    · -- x beyond the first segment: recurse into the tail
      rcases xs with _ | ⟨x2, xs⟩
      · -- a two-point table whose last point is x1 contradicts x1 < x
        exfalso
        have hx1 : x ≤ x1 := by simpa [List.getLast] using hhi
        exact absurd hx1 h2
      · rcases fs with _ | ⟨f2, fs⟩
        · simp at hlen
        · have hcx1 := (List.chain'_cons.mp hcx).2
          have hcf1 := (List.chain'_cons.mp hcf).2
          have hlen1 : (x1 :: x2 :: xs).length = (f1 :: f2 :: fs).length := by
            simpa using hlen
          have hy : f1 < interp x (x1 :: x2 :: xs) (f1 :: f2 :: fs) :=
            interp_gt_head xs fs x1 x2 f1 f2 x hcx1 hcf1 hlen1
              (lt_of_not_le h2)
          have hlast : x ≤ (x1 :: x2 :: xs).getLast
              (List.cons_ne_nil x1 (x2 :: xs)) := by
            simpa [List.getLast] using hhi
          have ih := interp_roundtrip (x2 :: xs) (f2 :: fs) x1 f1 x
            hcx1 hcf1 hlen1 (le_of_lt (lt_of_not_le h2)) hlast
          rw [interp_cons_cons, if_neg (not_le.mpr (lt_trans hf01 hy)),
            if_neg (not_le.mpr hy)]
          exact ih

/-- C5: whenever the provider's effective OCV table is strictly increasing
in both coordinates and spans SOC 0..1, `soc_from_ocv` undoes
`ocv_from_soc` exactly (in particular within the 1e-3 tolerance), for every
SOC in `[0,1]` and every temperature: the temperature correction cancels
exactly and table interpolation then inversion recovers the SOC. -/
theorem ocv_soc_roundtrip (s : DFNState)
    (hcx : List.Chain' (· < ·) (ocvTablePair s).1)
    (hcf : List.Chain' (· < ·) (ocvTablePair s).2)
    (hlen : (ocvTablePair s).1.length = (ocvTablePair s).2.length)
    (hhead : (ocvTablePair s).1.head? = some 0)
    (hlast : (ocvTablePair s).1.getLast? = some 1)
    (soc temp : ℚ) (h0 : 0 ≤ soc) (h1 : soc ≤ 1) :
    |socFromOcv s (ocvFromSoc s soc temp) temp - soc| ≤ 1/1000 := by
  rcases hx : (ocvTablePair s).1 with _ | ⟨x0, xs⟩
  · rw [hx] at hhead
    simp at hhead
  rcases hf : (ocvTablePair s).2 with _ | ⟨f0, fs⟩
  · rw [hx, hf] at hlen
    simp at hlen
  rw [hx] at hcx hhead hlast hlen
  rw [hf] at hcf hlen
  have hx0 : x0 = 0 := by simpa using hhead
  subst hx0
  have hlastv : (0 :: xs).getLast (List.cons_ne_nil 0 xs) = 1 := by
    have hq := List.getLast?_eq_getLast (0 :: xs) (List.cons_ne_nil 0 xs)
    rw [hq] at hlast
    exact Option.some_injective _ hlast
  have hclip : clip soc 0 1 = soc := by
    unfold clip
    rw [max_eq_left h0, min_eq_left h1]
  simp only [ocvFromSoc, socFromOcv]
  rw [hx, hf]
  simp only [Rat.cast_id, List.map_id']
  rw [hclip]
  have harg : interp soc (0 :: xs) (f0 :: fs) - 8/10000 * (temp - 25) +
      8/10000 * (temp - 25) = interp soc (0 :: xs) (f0 :: fs) := by ring
  rw [harg]
  rw [interp_roundtrip xs fs 0 f0 soc hcx hcf hlen h0 (by rw [hlastv]; exact h1)]
  rw [hclip]
  norm_num

set_option maxHeartbeats 1000000 in
/-- Closed instance of `ocv_soc_roundtrip` on the literature fallback table
(a fresh provider) at SOC 0.5 and 30 °C. -/
theorem ocv_soc_roundtrip_witness :
    |socFromOcv dfnFresh (ocvFromSoc dfnFresh ((1 : ℚ)/2) 30) 30 - 1/2| ≤
      1/1000 :=
  ocv_soc_roundtrip dfnFresh
    (by norm_num [ocvTablePair, dfnFresh, dfnNew, fallbackSoc, List.chain'_cons])
    (by norm_num [ocvTablePair, dfnFresh, dfnNew, fallbackOcv, List.chain'_cons])
    (by norm_num [ocvTablePair, dfnFresh, dfnNew, fallbackSoc, fallbackOcv])
    (by norm_num [ocvTablePair, dfnFresh, dfnNew, fallbackSoc])
    (by norm_num [ocvTablePair, dfnFresh, dfnNew, fallbackSoc, List.getLast?])
    (1/2) 30 (by norm_num) (by norm_num)

/-- A diagonal matrix with nonnegative entries is symmetric PSD. -/
theorem psd_diag (p q : ℝ) (hp : 0 ≤ p) (hq : 0 ≤ q) :
    IsSymPSD (Mat2.diag p q) := by
  refine ⟨rfl, fun x y => ?_⟩
  simp only [Mat2.diag]
  nlinarith [mul_nonneg hp (sq_nonneg x), mul_nonneg hq (sq_nonneg y)]

/-- The sum of symmetric PSD matrices is symmetric PSD. -/
theorem psd_add (M N : Mat2) (hM : IsSymPSD M) (hN : IsSymPSD N) :
    IsSymPSD (M.add N) := by
  refine ⟨?_, fun x y => ?_⟩
  · simp only [Mat2.add, hM.1, hN.1]
  · simp only [Mat2.add]
    nlinarith [hM.2 x y, hN.2 x y]

/-- Congruence by the diagonal Jacobian `F = [[1,0],[0,alpha]]` preserves
symmetric PSD. -/
theorem psd_FPF (M : Mat2) (alpha : ℝ) (hM : IsSymPSD M) :
    IsSymPSD ((((⟨1, 0, 0, alpha⟩ : Mat2).mul M).mul
      (Mat2.transpose ⟨1, 0, 0, alpha⟩)) ) := by
  refine ⟨?_, fun x y => ?_⟩
  · simp only [Mat2.mul, Mat2.transpose]
    rw [hM.1]
    ring
  · simp only [Mat2.mul, Mat2.transpose]
    nlinarith [hM.2 x (alpha * y)]

/-- With a PSD prediction covariance and positive measurement noise the
innovation covariance `S` is strictly positive. -/
theorem kalmanS_pos (Pp : Mat2) (hv : Vec2) (R : ℝ)
    (hP : IsSymPSD Pp) (hR : 0 < R) : 0 < kalmanS Pp hv R := by
  have hq := hP.2 hv.x hv.y
  simp only [kalmanS, Vec2.dot, Mat2.mulVec]
  nlinarith [hq]

/-- The Kalman covariance update `P = (I - K·H)·P_pred` with the optimal
gain `K = P_pred·Hᵗ/S` maps a symmetric PSD prediction to a symmetric PSD
posterior, with no re-symmetrization step. -/
theorem kalmanPostP_symPSD (Pp : Mat2) (hv : Vec2) (R : ℝ)
    (hP : IsSymPSD Pp) (hR : 0 < R) : IsSymPSD (kalmanPostP Pp hv R) := by
  obtain ⟨A, B, C, D⟩ := Pp
  obtain ⟨h1, h2⟩ := hv
  have hBC : B = C := hP.1
  subst hBC
  have hform : ∀ x y : ℝ, 0 ≤ A * x ^ 2 + 2 * B * x * y + D * y ^ 2 := by
    intro x y
    have hq := hP.2 x y
    simp only at hq
    nlinarith [hq]
  have hqh := hform h1 h2
  have hS0 : kalmanS ⟨A, B, B, D⟩ ⟨h1, h2⟩ R =
      A * h1 ^ 2 + 2 * B * h1 * h2 + D * h2 ^ 2 + R := by
    simp only [kalmanS, Vec2.dot, Mat2.mulVec]
    ring
  have hSpos : 0 < kalmanS ⟨A, B, B, D⟩ ⟨h1, h2⟩ R := by
    rw [hS0]
    linarith
  set S := kalmanS ⟨A, B, B, D⟩ ⟨h1, h2⟩ R with hSdef
  have hSne : S ≠ 0 := ne_of_gt hSpos
  have hpost : kalmanPostP ⟨A, B, B, D⟩ ⟨h1, h2⟩ R =
      ⟨A - (A * h1 + B * h2) ^ 2 / S,
       B - (A * h1 + B * h2) * (B * h1 + D * h2) / S,
       B - (A * h1 + B * h2) * (B * h1 + D * h2) / S,
       D - (B * h1 + D * h2) ^ 2 / S⟩ := by
    simp only [kalmanPostP, kalmanK, Mat2.mul, Mat2.sub, Mat2.id, Mat2.outer,
      Mat2.mulVec, Mat2.mk.injEq, ← hSdef]
    refine ⟨?_, ?_, ?_, ?_⟩ <;> (field_simp ; ring)
  rw [hpost]
  have hcs : ∀ x y : ℝ, ((A * h1 + B * h2) * x + (B * h1 + D * h2) * y) ^ 2 ≤
      (A * x ^ 2 + 2 * B * x * y + D * y ^ 2) *
        (A * h1 ^ 2 + 2 * B * h1 * h2 + D * h2 ^ 2) := by
    intro x y
    have hpoly : ∀ t : ℝ, 0 ≤ (A * x ^ 2 + 2 * B * x * y + D * y ^ 2) * (t * t) +
        (2 * ((A * h1 + B * h2) * x + (B * h1 + D * h2) * y)) * t +
        (A * h1 ^ 2 + 2 * B * h1 * h2 + D * h2 ^ 2) := by
      intro t
      have he : (A * x ^ 2 + 2 * B * x * y + D * y ^ 2) * (t * t) +
          (2 * ((A * h1 + B * h2) * x + (B * h1 + D * h2) * y)) * t +
          (A * h1 ^ 2 + 2 * B * h1 * h2 + D * h2 ^ 2) =
          A * (x * t + h1) ^ 2 + 2 * B * (x * t + h1) * (y * t + h2) +
            D * (y * t + h2) ^ 2 := by ring
      rw [he]
      exact hform _ _
    have hd := discrim_le_zero hpoly
    rw [discrim] at hd
    nlinarith [hd]
  refine ⟨rfl, fun x y => ?_⟩
  show 0 ≤ (A - (A * h1 + B * h2) ^ 2 / S) * x ^ 2 +
      ((B - (A * h1 + B * h2) * (B * h1 + D * h2) / S) +
        (B - (A * h1 + B * h2) * (B * h1 + D * h2) / S)) * x * y +
      (D - (B * h1 + D * h2) ^ 2 / S) * y ^ 2
  have hqx := hform x y
  have hcs2 : ((A * h1 + B * h2) * x + (B * h1 + D * h2) * y) ^ 2 ≤
      (A * x ^ 2 + 2 * B * x * y + D * y ^ 2) * S := by
    rw [hS0]
    nlinarith [hcs x y, hqx, hR]
  have hdivle : ((A * h1 + B * h2) * x + (B * h1 + D * h2) * y) ^ 2 / S ≤
      A * x ^ 2 + 2 * B * x * y + D * y ^ 2 := by
    rw [div_le_iff₀ hSpos]
    nlinarith [hcs2]
  have heq : (A - (A * h1 + B * h2) ^ 2 / S) * x ^ 2 +
      ((B - (A * h1 + B * h2) * (B * h1 + D * h2) / S) +
        (B - (A * h1 + B * h2) * (B * h1 + D * h2) / S)) * x * y +
      (D - (B * h1 + D * h2) ^ 2 / S) * y ^ 2 =
      (A * x ^ 2 + 2 * B * x * y + D * y ^ 2) -
        ((A * h1 + B * h2) * x + (B * h1 + D * h2) * y) ^ 2 / S := by
    field_simp
    ring
  rw [heq]
  linarith

/-- The bootstrap branch of `update` preserves or resets the covariance to a
diagonal PSD matrix, and never touches `Q_noise` or `R_noise`. -/
theorem ekfPrepared_P_psd (dfn : DFNState) (st : EKFState)
    (v_measured temp_c : ℝ) (hP : IsSymPSD st.P) :
    IsSymPSD (ekfPrepared dfn st v_measured temp_c).P ∧
    (ekfPrepared dfn st v_measured temp_c).Q_noise = st.Q_noise ∧
    (ekfPrepared dfn st v_measured temp_c).R_noise = st.R_noise := by
  simp only [ekfPrepared]
  split_ifs with h
  · exact ⟨hP, rfl, rfl⟩
  · exact ⟨psd_diag _ _ (by norm_num) (by norm_num), rfl, rfl⟩

/-- C2: one `EKFSoCEstimator.update` call maps a symmetric PSD covariance
(with the filter's symmetric PSD process noise and positive measurement
noise) to a symmetric PSD covariance; this comes from the update formula
`P = (I − K·H)·P_pred` with `K = P_pred·Hᵗ/S` itself — the code applies no
re-symmetrization. -/
theorem ekf_covariance_symPSD (dfn : DFNState) (st : EKFState)
    (v_measured current_a dt temp_c : ℝ)
    (hP : IsSymPSD st.P) (hQ : IsSymPSD st.Q_noise) (hR : 0 < st.R_noise) :
    IsSymPSD (ekfRun dfn st v_measured current_a dt temp_c).state.P := by
  obtain ⟨hP1, hQ1, hR1⟩ := ekfPrepared_P_psd dfn st v_measured temp_c hP
  simp only [ekfRun]
  exact kalmanPostP_symPSD _ _ _
    (psd_add _ _ (psd_FPF _ _ hP1) (hQ1 ▸ hQ)) (hR1 ▸ hR)

/-- Closed instance of `ekf_covariance_symPSD` at a default-constructed
filter and a fresh provider. -/
theorem ekf_covariance_symPSD_witness :
    IsSymPSD (ekfRun dfnFresh ekfW (37/10) 1 2 25).state.P :=
  ekf_covariance_symPSD dfnFresh ekfW (37/10) 1 2 25
    (by
      have hp := psd_diag (1/100) (1/1000) (by norm_num) (by norm_num)
      simpa [ekfW, ekfInit] using hp)
    (by
      have hp := psd_diag (1/100000) (1/1000000) (by norm_num) (by norm_num)
      simpa [ekfW, ekfInit] using hp)
    (by norm_num [ekfW, ekfInit])

/-- C7: in every `update` call the innovation covariance
`S = H·P_pred·Hᵗ + R_meas` is strictly positive as soon as the stored
covariance and process noise are symmetric PSD and `R_meas > 0`, so the
gain division `K = P_pred·Hᵗ/S` never divides by zero; the filter itself
applies no guard. -/
theorem ekf_innovation_covariance_pos (dfn : DFNState) (st : EKFState)
    (v_measured current_a dt temp_c : ℝ)
    (hP : IsSymPSD st.P) (hQ : IsSymPSD st.Q_noise) (hR : 0 < st.R_noise) :
    0 < (ekfRun dfn st v_measured current_a dt temp_c).S := by
  obtain ⟨hP1, hQ1, hR1⟩ := ekfPrepared_P_psd dfn st v_measured temp_c hP
  simp only [ekfRun]
  exact kalmanS_pos _ _ _
    (psd_add _ _ (psd_FPF _ _ hP1) (hQ1 ▸ hQ)) (hR1 ▸ hR)

/-- Closed instance of `ekf_innovation_covariance_pos`. -/
theorem ekf_innovation_covariance_pos_witness :
    0 < (ekfRun dfnFresh ekfW (37/10) 1 2 25).S :=
  ekf_innovation_covariance_pos dfnFresh ekfW (37/10) 1 2 25
    (by
      have hp := psd_diag (1/100) (1/1000) (by norm_num) (by norm_num)
      simpa [ekfW, ekfInit] using hp)
    (by
      have hp := psd_diag (1/100000) (1/1000000) (by norm_num) (by norm_num)
      simpa [ekfW, ekfInit] using hp)
    (by norm_num [ekfW, ekfInit])

/-- For an already-initialized filter the prepared state does not depend on
the measured voltage. -/
theorem ekfPrepared_of_initialized (dfn : DFNState) (st : EKFState)
    (temp_c : ℝ) (h : st.initialized = true) :
    ∀ v_measured, ekfPrepared dfn st v_measured temp_c =
      ekfPrepared dfn st 0 temp_c := by
  intro v_measured
  simp only [ekfPrepared, h, if_true]

/-- C6: feeding an initialized filter exactly its own predicted terminal
voltage `v_hat = OCV(soc_pred) + I·R0 + v_rc_pred` yields a zero innovation
and a posterior state equal to the predicted state: the SOC follows the
process model alone, with no measurement correction. -/
theorem ekf_zero_innovation (dfn : DFNState) (st : EKFState)
    (current_a dt temp_c : ℝ) (h : st.initialized = true) :
    (ekfRun dfn st (ekfVhat dfn st current_a dt temp_c)
        current_a dt temp_c).out.innovation = 0 ∧
    (ekfRun dfn st (ekfVhat dfn st current_a dt temp_c)
        current_a dt temp_c).state.x0 =
      (ekfRun dfn st (ekfVhat dfn st current_a dt temp_c)
        current_a dt temp_c).socPred ∧
    (ekfRun dfn st (ekfVhat dfn st current_a dt temp_c)
        current_a dt temp_c).state.x1 =
      (ekfRun dfn st (ekfVhat dfn st current_a dt temp_c)
        current_a dt temp_c).vRcPred := by
  have hprep := ekfPrepared_of_initialized dfn st temp_c h
  simp only [ekfRun, ekfVhat, hprep, sub_self, mul_zero, add_zero]
  refine ⟨trivial, ?_, trivial⟩
  exact clip_idem _ 0 1 (by norm_num)

/-- Closed instance of `ekf_zero_innovation` at an initialized filter. -/
theorem ekf_zero_innovation_witness :
    (ekfRun dfnFresh ekfW (ekfVhat dfnFresh ekfW 1 2 25) 1 2 25).out.innovation
      = 0 ∧
    (ekfRun dfnFresh ekfW (ekfVhat dfnFresh ekfW 1 2 25) 1 2 25).state.x0 =
      (ekfRun dfnFresh ekfW (ekfVhat dfnFresh ekfW 1 2 25) 1 2 25).socPred ∧
    (ekfRun dfnFresh ekfW (ekfVhat dfnFresh ekfW 1 2 25) 1 2 25).state.x1 =
      (ekfRun dfnFresh ekfW (ekfVhat dfnFresh ekfW 1 2 25) 1 2 25).vRcPred :=
  ekf_zero_innovation dfnFresh ekfW 1 2 25 rfl

/-- Every `update` call stores a SOC clamped into `[0,1]`. -/
theorem ekfRun_x0_bounds (dfn : DFNState) (st : EKFState)
    (v_measured current_a dt temp_c : ℝ) :
    0 ≤ (ekfRun dfn st v_measured current_a dt temp_c).state.x0 ∧
    (ekfRun dfn st v_measured current_a dt temp_c).state.x0 ≤ 1 := by
  simp only [ekfRun]
  exact ⟨le_clip _ _ _ (by norm_num), clip_le _ _ _⟩

/-- Along any sequence of `update` calls the stored SOC stays in `[0,1]`
once it starts there. -/
theorem ekfFold_x0_bounds :
    ∀ (l : List EKFInp) (st : EKFState), 0 ≤ st.x0 → st.x0 ≤ 1 →
    0 ≤ (ekfFold st l).x0 ∧ (ekfFold st l).x0 ≤ 1
  | [], st, h0, h1 => ⟨h0, h1⟩
  | inp :: l, st, _, _ => by
    have hb := ekfRun_x0_bounds inp.dfn st inp.v_measured inp.current_a
      inp.dt inp.temp_c
    have ih := ekfFold_x0_bounds l
      (ekfRun inp.dfn st inp.v_measured inp.current_a inp.dt inp.temp_c).state
      hb.1 hb.2
    simpa [ekfFold] using ih

/-- Every `update` call clips all three SOH fields into
`[soh_eol − 5, 100]` and leaves `soh_eol` unchanged. -/
theorem sohUpdate_soh_bounds (s : SOHState ℚ) (soc current_a r0 dt now : ℚ)
    (h : s.soh_eol - 5 ≤ 100) :
    (sohUpdate s soc current_a r0 dt now).1.soh_eol = s.soh_eol ∧
    (s.soh_eol - 5 ≤ (sohUpdate s soc current_a r0 dt now).1.soh_capacity ∧
      (sohUpdate s soc current_a r0 dt now).1.soh_capacity ≤ 100) ∧
    (s.soh_eol - 5 ≤ (sohUpdate s soc current_a r0 dt now).1.soh_resistance ∧
      (sohUpdate s soc current_a r0 dt now).1.soh_resistance ≤ 100) ∧
    (s.soh_eol - 5 ≤ (sohUpdate s soc current_a r0 dt now).1.soh_combined ∧
      (sohUpdate s soc current_a r0 dt now).1.soh_combined ≤ 100) := by
  simp only [sohUpdate]
  exact ⟨trivial, ⟨le_clip _ _ _ h, clip_le _ _ _⟩,
    ⟨le_clip _ _ _ h, clip_le _ _ _⟩, ⟨le_clip _ _ _ h, clip_le _ _ _⟩⟩

/-- Along any sequence of `update` calls the three SOH fields stay in
`[soh_eol − 5, 100]` once they start there. -/
theorem sohFold_soh_bounds :
    ∀ (l : List (SOHInp ℚ)) (s : SOHState ℚ), s.soh_eol - 5 ≤ 100 →
    (s.soh_eol - 5 ≤ s.soh_capacity ∧ s.soh_capacity ≤ 100) →
    (s.soh_eol - 5 ≤ s.soh_resistance ∧ s.soh_resistance ≤ 100) →
    (s.soh_eol - 5 ≤ s.soh_combined ∧ s.soh_combined ≤ 100) →
    (sohFold s l).soh_eol = s.soh_eol ∧
    (s.soh_eol - 5 ≤ (sohFold s l).soh_capacity ∧
      (sohFold s l).soh_capacity ≤ 100) ∧
    (s.soh_eol - 5 ≤ (sohFold s l).soh_resistance ∧
      (sohFold s l).soh_resistance ≤ 100) ∧
    (s.soh_eol - 5 ≤ (sohFold s l).soh_combined ∧
      (sohFold s l).soh_combined ≤ 100)
  | [], s, _, hc, hr, hb => ⟨rfl, hc, hr, hb⟩
  | inp :: l, s, h, _, _, _ => by
    obtain ⟨heq, hc, hr, hb⟩ := sohUpdate_soh_bounds s inp.soc inp.current_a
      inp.r0_measured inp.dt inp.now h
    have ih := sohFold_soh_bounds l
      (sohUpdate s inp.soc inp.current_a inp.r0_measured inp.dt inp.now).1
      (heq ▸ h) (heq ▸ hc) (heq ▸ hr) (heq ▸ hb)
    rw [heq] at ih
    simpa [sohFold] using ih

/-- C3: across every sequence of `update` calls with arbitrary (including
adversarially large discharge) currents the EKF's stored SOC never leaves
`[0,1]`, and across every sequence of SOH updates the estimator's
`soh_capacity`, `soh_resistance` and `soh_combined` never fall below
`soh_eol − 5` nor exceed 100 (given the sanity condition
`soh_eol − 5 ≤ 100` on the configured threshold). -/
theorem soc_soh_always_clamped
    (capacity_ah R0 R1 C1 eta temp_c : ℝ) (l : List EKFInp)
    (cap R0n eol : ℚ) (ncl : ℕ) (t0 : ℚ) (ls : List (SOHInp ℚ))
    (heol : eol - 5 ≤ 100) :
    (0 ≤ (ekfFold (ekfInit capacity_ah R0 R1 C1 eta temp_c) l).x0 ∧
      (ekfFold (ekfInit capacity_ah R0 R1 C1 eta temp_c) l).x0 ≤ 1) ∧
    (eol - 5 ≤ (sohFold (sohInit cap R0n eol ncl t0) ls).soh_capacity ∧
      (sohFold (sohInit cap R0n eol ncl t0) ls).soh_capacity ≤ 100) ∧
    (eol - 5 ≤ (sohFold (sohInit cap R0n eol ncl t0) ls).soh_resistance ∧
      (sohFold (sohInit cap R0n eol ncl t0) ls).soh_resistance ≤ 100) ∧
    (eol - 5 ≤ (sohFold (sohInit cap R0n eol ncl t0) ls).soh_combined ∧
      (sohFold (sohInit cap R0n eol ncl t0) ls).soh_combined ≤ 100) := by
  have hekf := ekfFold_x0_bounds l (ekfInit capacity_ah R0 R1 C1 eta temp_c)
    (by norm_num [ekfInit]) (by norm_num [ekfInit])
  have hsoh := sohFold_soh_bounds ls (sohInit cap R0n eol ncl t0)
    (by simpa [sohInit] using heol)
    (⟨by simp only [sohInit]; linarith, by simp [sohInit]⟩)
    (⟨by simp only [sohInit]; linarith, by simp [sohInit]⟩)
    (⟨by simp only [sohInit]; linarith, by simp [sohInit]⟩)
  simp only [sohInit] at hsoh
  exact ⟨hekf, hsoh.2.1, hsoh.2.2.1, hsoh.2.2.2⟩

/-- Closed instance of `soc_soh_always_clamped` on short concrete call
sequences. -/
theorem soc_soh_always_clamped_witness :
    (0 ≤ (ekfFold (ekfInit 2 (62/1000) (35/1000) 2500 (98/100) 25)
        [⟨dfnFresh, 37/10, 1, 2, 25⟩]).x0 ∧
      (ekfFold (ekfInit 2 (62/1000) (35/1000) 2500 (98/100) 25)
        [⟨dfnFresh, 37/10, 1, 2, 25⟩]).x0 ≤ 1) ∧
    (80 - 5 ≤ (sohFold (sohInit (α := ℚ) 2 (62/1000) 80 500 0)
        [⟨1/2, 1, 62/1000, 2, 10⟩]).soh_capacity ∧
      (sohFold (sohInit (α := ℚ) 2 (62/1000) 80 500 0)
        [⟨1/2, 1, 62/1000, 2, 10⟩]).soh_capacity ≤ 100) ∧
    (80 - 5 ≤ (sohFold (sohInit (α := ℚ) 2 (62/1000) 80 500 0)
        [⟨1/2, 1, 62/1000, 2, 10⟩]).soh_resistance ∧
      (sohFold (sohInit (α := ℚ) 2 (62/1000) 80 500 0)
        [⟨1/2, 1, 62/1000, 2, 10⟩]).soh_resistance ≤ 100) ∧
    (80 - 5 ≤ (sohFold (sohInit (α := ℚ) 2 (62/1000) 80 500 0)
        [⟨1/2, 1, 62/1000, 2, 10⟩]).soh_combined ∧
      (sohFold (sohInit (α := ℚ) 2 (62/1000) 80 500 0)
        [⟨1/2, 1, 62/1000, 2, 10⟩]).soh_combined ≤ 100) :=
  soc_soh_always_clamped 2 (62/1000) (35/1000) 2500 (98/100) 25
    [⟨dfnFresh, 37/10, 1, 2, 25⟩] 2 (62/1000) 80 500 0
    [⟨1/2, 1, 62/1000, 2, 10⟩] (by norm_num)

/-- C8: `BatteryDigitalTwin.step` always returns a complete result record —
there is no error variant, and the step counter advances in every lifecycle
state — and before the EKF/SOH pair exists, while the provider is not
ready, the SOC field comes from direct OCV inversion of the measured
voltage via `soc_from_ocv`, the innovation is reported as 0, the predicted
voltage echoes the measurement, and the SOH fields take their defaults. -/
theorem twin_step_total_and_fallback (s : TwinState)
    (voltage_v current_ma temperature_c dt now : ℝ) :
    (twinStep s voltage_v current_ma temperature_c dt now).2.step_count =
      s.step_count + 1 ∧
    (s.ekf = none → s.soh = none → s.dfn.is_ready = false →
      (twinStep s voltage_v current_ma temperature_c dt now).2.soc_ekf =
        roundTo (socFromOcv s.dfn voltage_v temperature_c) 4 ∧
      (twinStep s voltage_v current_ma temperature_c dt now).2.innovation = 0 ∧
      (twinStep s voltage_v current_ma temperature_c dt now).2.v_predicted =
        roundTo voltage_v 4 ∧
      (twinStep s voltage_v current_ma temperature_c dt now).2.soh = 100) := by
  constructor
  · rfl
  · intro he hs hr
    simp only [twinStep, he, hs, hr, Option.isNone_none, Bool.true_and]
    refine ⟨rfl, roundTo_zero 5, rfl, rfl⟩

/-- Closed instance of `twin_step_total_and_fallback` at a freshly
constructed twin whose provider has not become ready yet. -/
theorem twin_step_total_and_fallback_witness :
    (twinStep twinW (37/10) 150 25 2 4).2.step_count = twinW.step_count + 1 ∧
    (twinStep twinW (37/10) 150 25 2 4).2.soc_ekf =
      roundTo (socFromOcv twinW.dfn (37/10) 25) 4 ∧
    (twinStep twinW (37/10) 150 25 2 4).2.innovation = 0 :=
  ⟨(twin_step_total_and_fallback twinW (37/10) 150 25 2 4).1,
   ((twin_step_total_and_fallback twinW (37/10) 150 25 2 4).2 rfl rfl rfl).1,
   ((twin_step_total_and_fallback twinW (37/10) 150 25 2 4).2 rfl rfl rfl).2.1⟩
